import Mathlib

/-!
Verification of the test-run orchestration engine of `vscode-java-test`
(file `src/extension/src/extension.ts`) against its specification.

The TypeScript source is shallowly embedded: every function relevant to the
claims is translated into a pure Lean definition.  Asynchronous side effects
(UI notifications, logging, spawning the subprocess, filesystem writes) are
made explicit as values of an effect type, returned in the order the source
performs them; promise outcomes are `Except String` values (`Except.error`
is a rejected promise / thrown exception).  Environment-dependent inputs
that the source reads implicitly (`process.platform`, `os.EOL`, the result
of the `glob` search, filesystem errors delivered to callbacks, subprocess
events) are passed as explicit parameters.
-/

/-- One runnable test unit as passed to the run commands: mirrors the
`TestSuite` protocol objects, keeping the two fields `extension.ts` reads
(`test`, the fully qualified name pushed onto the command line, and `uri`,
the originating document location). -/
structure TestSuite where
  test : String
  uri : String
deriving DecidableEq

/-- Observable side effects performed by the orchestration code, in program
order: output-channel operations, user-visible messages, logger calls, the
assignments to the module-level `running` flag, `cp.exec`, `rimraf`
invocations, the close-event bookkeeping, and the telemetry record emitted
by `withScopeAsync` (status string plus the caught exception, if any). -/
inductive Eff where
  | clearOutput : Eff
  | showOutput : Eff
  | showInfo : String → Eff
  | showErr : String → Eff
  | logInfo : String → Eff
  | logErr : String → Eff
  | setRunning : Bool → Eff
  | exec : String → Eff
  | rimraf : String → Eff
  | feedBack : Eff
  | fireChange : Eff
  | logUsage : String → Option String → Eff
deriving DecidableEq

/-- Number of `running = false` assignments in an effect trace; used to state
that the singleton guard releases its flag exactly once. -/
def countSetRunningFalse : List Eff → Nat
  | [] => 0
  | Eff.setRunning false :: es => countSetRunningFalse es + 1
  | _ :: es => countSetRunningFalse es

/-- Embedding of `runSingleton` (`extension.ts` lines 206-219).  The first
argument is the current value of the module-level `running` flag; the second
is the settlement of the awaited `runTest` promise (`Except.error` for a
rejection, `Except.ok none` for the explicit `return null`, `Except.ok
(some ())` for normal completion).  Returns the value of the `running` flag
after the call completes, the guard's own effect trace (the flag writes and
the rejection notices; `runTest`'s internal effects are modelled in
`runTest` itself), and the settlement of the `runSingleton` promise.  In the
acquired branch the `try`/`finally` resets the flag and then lets the
`runTest` outcome propagate; the function body never returns a value, so a
non-error outcome settles as `undefined` (`Except.ok none`). -/
def runSingleton (running : Bool) (runTestResult : Except String (Option Unit)) :
    Bool × List Eff × Except String (Option Unit) :=
  if running then
    (running,
     [Eff.showInfo "A test session is currently running. Please wait until it finishes.",
      Eff.logInfo "Skip this run cause we only support running one session at the same time"],
     Except.ok none)
  else
    (false,
     [Eff.setRunning true, Eff.setRunning false],
     match runTestResult with
     | Except.ok _ => Except.ok none
     | Except.error e => Except.error e)

/-- State of the singleton protocol over time: the module-level `running`
flag together with the number of runs currently in flight (acquired and not
yet past their `finally`). -/
structure GuardState where
  running : Bool
  active : Nat
deriving DecidableEq

/-- Interleaving events of the singleton protocol: a run or debug command
invocation arriving (`request`), and the `finally` block of an acquired run
executing (`complete`).  Because the guarded body is awaited, further
requests can arrive between a run's acquire and its completion; this event
alphabet captures exactly those interleavings. -/
inductive GuardEvent where
  | request : GuardEvent
  | complete : GuardEvent

/-- One step of the singleton protocol.  A request finding `running = true`
is dropped (state unchanged, per the guard branch of `runSingleton`); a
request finding `running = false` acquires the flag and starts a run; a
completion runs the `finally` block of the active run, releasing the flag. -/
def guardStep : GuardState → GuardEvent → GuardState
  | s, GuardEvent.request => if s.running then s else ⟨true, s.active + 1⟩
  | s, GuardEvent.complete => if s.active = 0 then s else ⟨false, s.active - 1⟩

/-- Protocol state reached from the initial state (`running = false`, no
active run) after a sequence of events. -/
def guardRun (evs : List GuardEvent) : GuardState :=
  evs.foldl guardStep ⟨false, 0⟩

/-- JavaScript `Array.prototype.join`: elements concatenated with the
separator between successive elements (empty string for the empty array). -/
def joinSep (sep : String) : List String → String
  | [] => ""
  | [x] => x
  | x :: y :: xs => x ++ sep ++ joinSep sep (y :: xs)

/-- Quote-wrapping applied to the interpreter path and the classpath token
when they are pushed onto the parameter list. -/
def quoteArg (s : String) : String := "\"" ++ s ++ "\""

namespace Constants

/-- Modelled from the spec: the threshold `Constants.MAX_CLASS_PATH_LENGTH`
is imported from `./commands`, a file of this repository that is not under
`src/`; the spec describes it as a fixed documented constant analogous to
historical OS command-line limits.  The claims depend only on the comparison
against it, not on its value; 4096 is used here. -/
def MAX_CLASS_PATH_LENGTH : Nat := 4096

end Constants

/-- Modelled from the spec: the `file-url` npm module used by
`constructManifestFile` is an external dependency not under `src/`; the spec
only requires that each entry be rendered as its file-URL.  The model
prefixes the scheme and keeps the path, which preserves the property the
claims use (the URL of an entry ends in `.jar` exactly when the entry does,
and contains the entry itself). -/
def fileUrl (c : String) : String := "file://" ++ c

/-- Embedding of `constructManifestFile` (`extension.ts` lines 294-303).
`eol` is `os.EOL`, passed explicitly.  The content is the `Class-Path:`
header and the file-URL of every entry (archives as-is, other entries with a
trailing slash), joined by a space, line terminator, space sequence, with a
final line terminator appended. -/
def constructManifestFile (eol : String) (classpaths : List String) : String :=
  let extended := "Class-Path:" ::
    classpaths.map (fun c =>
      let p := fileUrl c
      if p.endsWith ".jar" then p else p ++ "/")
  joinSep (" " ++ eol ++ " ") extended ++ eol

/-- Error object delivered to the `mkdirp` callback: the source inspects its
`code` property and rejects with the error itself (represented here by its
message). -/
structure MkdirpErr where
  code : String
  message : String
deriving DecidableEq

/-- Filesystem behaviour observed by `processLongClassPath` during one run:
the error (if any) delivered to the `mkdirp` callback and the error (if any)
emitted by the archiver while writing `path.jar`. -/
structure FsEnv where
  mkdirpErr : Option MkdirpErr
  archiverErr : Option String
deriving DecidableEq

/-- Denotation of a successful `processLongClassPath`: the string the promise
resolves with, and the archive write performed, if any, as the pair of the
file path and the manifest content appended under `META-INF/MANIFEST.MF`. -/
structure PLCPResult where
  resolved : String
  written : Option (String × String)
deriving DecidableEq

/-- Embedding of `processLongClassPath` (`extension.ts` lines 265-292) as the
settlement of the returned promise.  When the joined classpath is short the
promise resolves with it immediately and no filesystem activity occurs.
Otherwise a `mkdirp` error with a code other than `EEXIST` rejects the
promise first (the first settlement wins, although the callback keeps
executing — see `mkdirpCallback`); failing that, an archiver error rejects;
otherwise the archive holding the manifest is written to `path.jar` inside
the storage directory and the promise resolves with that path. -/
def processLongClassPath (env : FsEnv) (classpaths : List String)
    (separator storagePath eol : String) : Except String PLCPResult :=
  let concated := joinSep separator classpaths
  if concated.length ≤ Constants.MAX_CLASS_PATH_LENGTH then
    Except.ok ⟨concated, none⟩
  else
    let tempFile := storagePath ++ "/" ++ "path.jar"
    match env.mkdirpErr with
    | some e =>
      if e.code ≠ "EEXIST" then Except.error e.message
      else
        match env.archiverErr with
        | some a => Except.error a
        | none => Except.ok ⟨tempFile, some (tempFile, constructManifestFile eol classpaths)⟩
    | none =>
      match env.archiverErr with
      | some a => Except.error a
      | none => Except.ok ⟨tempFile, some (tempFile, constructManifestFile eol classpaths)⟩

/-- Actions performed inside the `mkdirp` callback of `processLongClassPath`
(`extension.ts` lines 272-290), in program order. -/
inductive JarEff where
  | logError : String → JarEff
  | reject : MkdirpErr → JarEff
  | createWriteStream : String → JarEff
  | pipeToOutput : JarEff
  | appendEntry : String → String → JarEff
  | finalizeArchive : JarEff
deriving DecidableEq

/-- Embedding of the body of the `mkdirp` callback (`extension.ts` lines
272-290) as its effect trace.  On a non-`EEXIST` error the code logs and
calls `reject`, but there is no early return, so the write stream is still
created, the archiver is still piped, and the manifest entry is still
appended and finalized after the rejection. -/
def mkdirpCallback (err : Option MkdirpErr) (tempFile : String)
    (classpaths : List String) (eol : String) : List JarEff :=
  (match err with
   | some e =>
     if e.code ≠ "EEXIST" then
       [JarEff.logError ("Failed to create sub directory for this run. Storage path: " ++ e.message),
        JarEff.reject e]
     else []
   | none => []) ++
  [JarEff.createWriteStream tempFile,
   JarEff.pipeToOutput,
   JarEff.appendEntry "META-INF/MANIFEST.MF" (constructManifestFile eol classpaths),
   JarEff.finalizeArchive]

/-- Embedding of the separator choice in `parseParams` (`extension.ts` lines
242-245): `;` initially, overwritten with `:` exactly when `process.platform`
is `darwin` or `linux`. -/
def separatorFor (platform : String) : String :=
  if platform = "darwin" ∨ platform = "linux" then ":" else ";"

/-- Embedding of the `isWindows` test at `extension.ts` line 33:
`process.platform.indexOf('win') === 0`, i.e. the platform string starts
with `win`, stated on the character data.  Used to state the
platform-family claim. -/
def isWindowsPlatform (platform : String) : Bool :=
  List.isPrefixOf "win".data platform.data

/-- Embedding of `parseParams` (`extension.ts` lines 227-263).  Inputs the
source reads from the environment are explicit: the `glob` result
(`launchersFound`), the resolved server directory (`serverHome`),
`process.platform` and `os.EOL`.  Returns the settlement of the promise
(`Except.ok none` is the `return null` of the launcher-not-found branch, a
rejection re-raises whatever `processLongClassPath` rejected with) together
with the log effects performed.  `path.resolve` on the interpreter and
launcher paths is modelled as path concatenation. -/
def parseParams (env : FsEnv) (javaHome : String) (classpaths suites : List String)
    (storagePath : String) (port : Nat) (debug : Bool) (launchersFound : List String)
    (serverHome platform eol : String) : Except String (Option (List String)) × List Eff :=
  let params0 := [quoteArg (javaHome ++ "/bin/java")]
  match launchersFound with
  | [] => (Except.ok none, [Eff.logErr "Failed to locate test server runtime!"])
  | launcher :: _ =>
    let classpaths1 := (serverHome ++ "/" ++ launcher) :: classpaths
    let separator := separatorFor platform
    match processLongClassPath env classpaths1 separator storagePath eol with
    | Except.error e => (Except.error e, [])
    | Except.ok r =>
      let params1 := params0 ++ ["-cp", quoteArg r.resolved]
      let params2 :=
        if debug then
          params1 ++ ["-Xdebug", "-Xrunjdwp:transport=dt_socket,server=y,suspend=y,address=" ++ toString port]
        else params1
      (Except.ok (some (params2 ++ ["com.microsoft.java.test.runner.JUnitLauncher"] ++ suites)), [])

/-- Events produced by the spawned subprocess during one run: the `error`
event (if it fired, with its message) and the `data` chunks delivered on
stderr, in arrival order. -/
structure ProcEvents where
  errorEvent : Option String
  stderrChunks : List String
deriving DecidableEq

/-- The accumulated `error` variable of `runTest` (`extension.ts` lines
160-170): starts empty and has every stderr chunk appended. -/
def accumulatedError (stderrChunks : List String) : String :=
  stderrChunks.foldl (fun acc c => acc ++ c) ""

/-- Settlement chosen by the subprocess `exit` handler. -/
inductive ExitResult where
  | resolved : ExitResult
  | rejected : String → ExitResult
deriving DecidableEq

/-- Embedding of the `exit` handler of `runTest` (`extension.ts` lines
184-190).  The source registers a zero-argument callback, so the exit code
is ignored; it is still a parameter here so that independence from the exit
status is expressible.  Rejects with the accumulated stderr text when that
text is non-empty, resolves otherwise. -/
def onExitCallback (errorAcc : String) (exitCode : Int) : ExitResult :=
  if errorAcc ≠ "" then ExitResult.rejected errorAcc else ExitResult.resolved

/-- Embedding of the classpath resolution of `runTest` (`extension.ts` lines
126-129): the request is normalized to an array, the URI of its first
element is parsed (modelled as the identity on the URI string) and the
classpath is looked up for that URI alone.  `getClassPath` stands for the
external `ClassPathManager`; the head default covers the out-of-bounds
access JavaScript would make on an empty array. -/
def classpathsForRun (getClassPath : String → List String) (testList : List TestSuite) :
    List String :=
  getClassPath ((testList.headD ⟨"", ""⟩).uri)

/-- Embedding of `runTest` (`extension.ts` lines 123-204) as the settlement
of its promise plus its effect trace.  `ts` is the timestamp token naming
the per-run storage directory; `portResult` is the settlement of the
`getPort()` promise, consulted only in debug mode.  A `parseParams`
rejection is logged (with the source's spelling), the partial storage is
deleted best-effort, and the error is re-thrown; a `null` parameter list
returns `null` without spawning; otherwise the command line is spawned and
the promise settles from the subprocess events: an `error` event rejects
with it, otherwise exit rejects with the accumulated stderr text when
non-empty and resolves when empty (`runTest` then completes with
`undefined`, i.e. `Except.ok (some ())` marks a normal completion). -/
def runTest (env : FsEnv) (proc : ProcEvents) (platform eol javaHome serverHome : String)
    (getClassPath : String → List String) (testList : List TestSuite)
    (storagePath ts : String) (launchersFound : List String)
    (portResult : Except String Nat) (isDebugMode : Bool) :
    Except String (Option Unit) × List Eff :=
  let baseEffs := [Eff.clearOutput, Eff.showOutput]
  let suites := testList.map (fun s => s.test)
  let classpaths := classpathsForRun getClassPath testList
  match isDebugMode, portResult with
  | true, Except.error e =>
    let message := "Failed to get free port for debugging. Details: " ++ e ++ "."
    (Except.error e, baseEffs ++ [Eff.showErr message, Eff.logErr message])
  | dbg, pr =>
    let port := pr.toOption.getD 0
    let storageForThisRun := storagePath ++ "/" ++ ts
    match parseParams env javaHome classpaths suites storageForThisRun port dbg launchersFound serverHome platform eol with
    | (Except.error e, pEffs) =>
      (Except.error e,
       baseEffs ++ pEffs ++
        [Eff.logErr ("Exception occers while parsing params. Details: " ++ e),
         Eff.rimraf storageForThisRun])
    | (Except.ok none, pEffs) => (Except.ok none, baseEffs ++ pEffs)
    | (Except.ok (some params), pEffs) =>
      let spawnEffs := [Eff.exec (joinSep " " params)]
      let closeEffs := [Eff.feedBack, Eff.fireChange, Eff.rimraf storageForThisRun]
      match proc.errorEvent with
      | some err =>
        (Except.error err,
         baseEffs ++ pEffs ++ spawnEffs ++
          [Eff.logErr ("Error occured while running/debugging tests. Message: " ++ err ++ ".")])
      | none =>
        let error := accumulatedError proc.stderrChunks
        if error ≠ "" then (Except.error error, baseEffs ++ pEffs ++ spawnEffs ++ closeEffs)
        else (Except.ok (some ()), baseEffs ++ pEffs ++ spawnEffs ++ closeEffs)

/-- Embedding of `withScopeAsync` (`extension.ts` lines 305-326), applied to
the settlement of the wrapped action.  A fulfilled action has its value
returned with a success telemetry record; a rejected action is caught, its
exception is stored in the telemetry record, and — since the `catch` block
neither returns nor re-throws — the wrapper itself completes with
`undefined`.  The `finally` block always emits the usage record. -/
def withScopeAsync (actionResult : Except String (Option Unit)) :
    Except String (Option Unit) × List Eff :=
  match actionResult with
  | Except.ok res => (Except.ok res, [Eff.logUsage "success" none])
  | Except.error e => (Except.ok none, [Eff.logUsage "fail" (some e)])

/-- Settlement observed by the caller of the registered run or debug command
(`extension.ts` lines 58-61): `withScopeAsync` wrapped around `runSingleton`,
here applied to the settlement of the guarded `runTest`. -/
def registeredRunCommand (running : Bool) (runTestResult : Except String (Option Unit)) :
    Except String (Option Unit) :=
  (withScopeAsync (runSingleton running runTestResult).2.2).1

/-- Interleaving of gap text around item text: `interleaveChars [g0, g1, ..., gn]
[x1, ..., xn]` is `g0 ++ x1 ++ g1 ++ ... ++ xn ++ gn` (extra trailing gaps
are ignored).  Used to state that a list of strings occurs, in order, as
disjoint substrings of a text. -/
def interleaveChars : List (List Char) → List (List Char) → List Char
  | [], _ => []
  | g :: _, [] => g
  | g :: gs, x :: xs => g ++ x ++ interleaveChars gs xs

/-- The strings `items` appear in the text `s`, each one intact, pairwise
disjoint, and in the given order: the text decomposes into alternating gap
and item segments. -/
def appearsInOrder (items : List String) (s : String) : Prop :=
  ∃ gaps : List (List Char), gaps.length = items.length + 1 ∧
    interleaveChars gaps (items.map String.data) = s.data

/-- Concrete overlong classpath entry used to exercise the manifest-jar
branch of `processLongClassPath`. -/
def bigEntryA : String := String.mk (List.replicate 4097 'a')

/-- Concrete overlong classpath entry used to exercise the rejection path of
the `mkdirp` callback. -/
def bigEntryB : String := String.mk (List.replicate 4097 'b')

/-- Strings with equal character data are equal. -/
theorem eq_of_data_eq {s t : String} (h : s.data = t.data) : s = t := by
  cases s
  cases t
  exact congrArg String.mk h

/-- Character data of the accumulating fold that builds the `error` variable
of `runTest`. -/
theorem foldl_append_data (l : List String) (a : String) :
    (l.foldl (fun acc c => acc ++ c) a).data = a.data ++ (l.map String.data).flatten := by
  induction l generalizing a with
  | nil => simp
  | cons x xs ih => simp [ih, String.data_append, List.append_assoc]

/-- The accumulated stderr text is empty exactly when every observed chunk
is empty. -/
theorem accumulatedError_eq_empty_iff (chunks : List String) :
    accumulatedError chunks = "" ↔ ∀ c ∈ chunks, c = "" := by
  have hd : (accumulatedError chunks).data = (chunks.map String.data).flatten := by
    simpa using foldl_append_data chunks ""
  constructor
  · intro h c hc
    have hdata : (chunks.map String.data).flatten = [] := by rw [← hd, h]
    have hmem : c.data ∈ chunks.map String.data := List.mem_map_of_mem _ hc
    exact eq_of_data_eq (List.flatten_eq_nil_iff.mp hdata _ hmem)
  · intro h
    apply eq_of_data_eq
    rw [hd]
    apply List.flatten_eq_nil_iff.mpr
    intro l hl
    obtain ⟨c, hc, rfl⟩ := List.mem_map.mp hl
    rw [h c hc]

/-- One protocol step preserves the singleton invariant: never more than one
run in flight and the flag set exactly while one is. -/
theorem guardStep_preserves (s : GuardState) (e : GuardEvent)
    (h1 : s.active ≤ 1) (h2 : s.running = decide (s.active = 1)) :
    (guardStep s e).active ≤ 1 ∧
      (guardStep s e).running = decide ((guardStep s e).active = 1) := by
  cases e with
  | request =>
    by_cases hr : s.running
    · have ha : s.active = 1 := by
        have h3 := h2
        rw [hr] at h3
        exact of_decide_eq_true h3.symm
      simp [guardStep, hr, ha]
    · have hf : s.running = false := by simpa using hr
      have ha : s.active = 0 := by
        have h3 := h2
        rw [hf] at h3
        have h4 := of_decide_eq_false h3.symm
        omega
      simp [guardStep, hr, ha]
  | complete =>
    by_cases hz : s.active = 0
    · simp only [guardStep, if_pos hz]
      exact ⟨h1, h2⟩
    · have ha : s.active = 1 := by omega
      simp [guardStep, hz, ha]

/-- The singleton invariant holds for every state reachable from the initial
state via any sequence of requests and completions. -/
theorem guardRun_invariant (evs : List GuardEvent) :
    (guardRun evs).active ≤ 1 ∧
      (guardRun evs).running = decide ((guardRun evs).active = 1) := by
  suffices h : ∀ (l : List GuardEvent) (s : GuardState),
      s.active ≤ 1 → s.running = decide (s.active = 1) →
      (l.foldl guardStep s).active ≤ 1 ∧
        (l.foldl guardStep s).running = decide ((l.foldl guardStep s).active = 1) by
    exact h evs ⟨false, 0⟩ (Nat.zero_le _) rfl
  intro l
  induction l with
  | nil => intro s h1 h2; exact ⟨h1, h2⟩
  | cons e l ih =>
    intro s h1 h2
    obtain ⟨h1', h2'⟩ := guardStep_preserves s e h1 h2
    exact ih (guardStep s e) h1' h2'

/-- C1: for every sequence of run or debug command invocations, at most one
run is ever active at a time; a run request arriving while a run is active
(the `running` flag is true) shows the user the session-already-running
notice, logs the skip, never spawns a process and never touches the flag,
which is left unchanged (still true), and the call settles with
`undefined`. -/
theorem c1_singleton_guard :
    (∀ evs : List GuardEvent, (guardRun evs).active ≤ 1) ∧
    (∀ r : Except String (Option Unit),
      runSingleton true r =
        (true,
         [Eff.showInfo "A test session is currently running. Please wait until it finishes.",
          Eff.logInfo "Skip this run cause we only support running one session at the same time"],
         Except.ok none)) :=
  ⟨fun evs => (guardRun_invariant evs).1, fun _ => rfl⟩

/-- C2: for every outcome of the guarded `runTest` — over all environments,
subprocess behaviours, launcher search results, port results and modes,
covering normal completion, the null short-circuit, parameter-building and
port-acquisition errors, spawn errors and stderr-triggered rejections — a
run acquired with the flag initially released resets the `running` flag to
false exactly once, and the flag is released when the guarded operation
completes. -/
theorem c2_release_exactly_once
    (env : FsEnv) (proc : ProcEvents) (platform eol javaHome serverHome : String)
    (getClassPath : String → List String) (testList : List TestSuite)
    (storagePath ts : String) (launchersFound : List String)
    (portResult : Except String Nat) (isDebugMode : Bool) :
    countSetRunningFalse
        (runSingleton false
          (runTest env proc platform eol javaHome serverHome getClassPath testList
            storagePath ts launchersFound portResult isDebugMode).1).2.1 = 1 ∧
    (runSingleton false
        (runTest env proc platform eol javaHome serverHome getClassPath testList
          storagePath ts launchersFound portResult isDebugMode).1).1 = false :=
  ⟨rfl, rfl⟩

/-- C5: at process exit the run's completion promise rejects with the
accumulated stderr text exactly when the accumulation is non-empty — which
holds exactly when some non-trivial stderr chunk was observed — and resolves
exactly when it is empty; the choice is independent of the process exit
status, which the zero-argument exit handler never inspects. -/
theorem c5_stderr_rejection (chunks : List String) (code : Int) :
    (onExitCallback (accumulatedError chunks) code
        = ExitResult.rejected (accumulatedError chunks)
      ↔ accumulatedError chunks ≠ "") ∧
    (onExitCallback (accumulatedError chunks) code = ExitResult.resolved
      ↔ accumulatedError chunks = "") ∧
    (accumulatedError chunks ≠ "" ↔ ∃ c ∈ chunks, c ≠ "") ∧
    (∀ code2 : Int,
      onExitCallback (accumulatedError chunks) code
        = onExitCallback (accumulatedError chunks) code2) := by
  refine ⟨?_, ?_, ?_, fun code2 => rfl⟩
  · by_cases h : accumulatedError chunks = "" <;> simp [onExitCallback, h]
  · by_cases h : accumulatedError chunks = "" <;> simp [onExitCallback, h]
  · rw [not_iff_comm]
    push_neg
    exact (accumulatedError_eq_empty_iff chunks).symm

/-- C9: the classpath of a run is resolved solely from the first suite's
document URI; for any classpath index and any first suite, the computed
classpath equals the lookup of that suite's URI and is unchanged by
replacing the remaining suites of the request with any others. -/
theorem c9_first_suite_classpath (getClassPath : String → List String)
    (s : TestSuite) (rest1 rest2 : List TestSuite) :
    classpathsForRun getClassPath (s :: rest1) = getClassPath s.uri ∧
    classpathsForRun getClassPath (s :: rest1)
      = classpathsForRun getClassPath (s :: rest2) :=
  ⟨rfl, rfl⟩

/-- C6: when the glob search finds no launcher archive, `parseParams`
resolves with `null` (no rejection) after logging the launcher-not-found
error, and `runTest` then completes with `null` having performed no `exec`
— no process is spawned. -/
theorem c6_launcher_not_found
    (env : FsEnv) (proc : ProcEvents) (platform eol javaHome serverHome : String)
    (getClassPath : String → List String) (testList : List TestSuite)
    (storagePath ts : String) (port : Nat) (dbg : Bool)
    (classpaths suites : List String) (sp : String) (pnum : Nat) :
    parseParams env javaHome classpaths suites sp pnum dbg [] serverHome platform eol
      = (Except.ok none, [Eff.logErr "Failed to locate test server runtime!"]) ∧
    runTest env proc platform eol javaHome serverHome getClassPath testList
        storagePath ts [] (Except.ok port) dbg
      = (Except.ok none,
         [Eff.clearOutput, Eff.showOutput,
          Eff.logErr "Failed to locate test server runtime!"]) ∧
    (∀ c : String,
      Eff.exec c ∉
        (runTest env proc platform eol javaHome serverHome getClassPath testList
          storagePath ts [] (Except.ok port) dbg).2) := by
  have h2 : runTest env proc platform eol javaHome serverHome getClassPath testList
      storagePath ts [] (Except.ok port) dbg
      = (Except.ok none,
         [Eff.clearOutput, Eff.showOutput,
          Eff.logErr "Failed to locate test server runtime!"]) := by
    cases dbg <;> rfl
  refine ⟨rfl, h2, fun c => ?_⟩
  rw [h2]
  simp

/-- C7 counterexample: a concrete port-acquisition failure in debug mode.
`runTest` rejects with the error, but the registered command invocation —
`withScopeAsync` around `runSingleton` — settles with `undefined`: the
error does not propagate to the command's caller, refuting the claim as
stated. -/
theorem c7_counterexample :
    (runTest ⟨none, none⟩ ⟨none, []⟩ "linux" "\n" "/jdk" "/srv" (fun _ => [])
        [⟨"pkg.T", "file:///t"⟩] "/storage" "123"
        ["com.microsoft.java.test.runner-1.0.jar"]
        (Except.error "port failure") true).1
      = Except.error "port failure" ∧
    registeredRunCommand false
        ((runTest ⟨none, none⟩ ⟨none, []⟩ "linux" "\n" "/jdk" "/srv" (fun _ => [])
          [⟨"pkg.T", "file:///t"⟩] "/storage" "123"
          ["com.microsoft.java.test.runner-1.0.jar"]
          (Except.error "port failure") true).1)
      = Except.ok none ∧
    registeredRunCommand false
        ((runTest ⟨none, none⟩ ⟨none, []⟩ "linux" "\n" "/jdk" "/srv" (fun _ => [])
          [⟨"pkg.T", "file:///t"⟩] "/storage" "123"
          ["com.microsoft.java.test.runner-1.0.jar"]
          (Except.error "port failure") true).1)
      ≠ Except.error "port failure" := by
  refine ⟨rfl, rfl, ?_⟩
  intro h
  have h2 : (Except.ok none : Except String (Option Unit))
      = Except.error "port failure" :=
    Eq.trans
      (Eq.symm (rfl :
        registeredRunCommand false
          ((runTest ⟨none, none⟩ ⟨none, []⟩ "linux" "\n" "/jdk" "/srv" (fun _ => [])
            [⟨"pkg.T", "file:///t"⟩] "/storage" "123"
            ["com.microsoft.java.test.runner-1.0.jar"]
            (Except.error "port failure") true).1)
          = Except.ok none))
      h
  exact Except.noConfusion h2

/-- C7 amended: every error thrown during run setup before the process is
spawned propagates out of the guarded `runSingleton` call (after the flag is
released) and is logged, but the instrumentation wrapper `withScopeAsync`
catches it, records a failure usage record carrying the exception, and
itself settles with `undefined`; the registered command invocation therefore
completes without rejecting to its caller.  The last two conjuncts exhibit
the port-acquisition case concretely: `runTest` in debug mode rejects with
the port error and logs it. -/
theorem c7_setup_error_swallowed (e : String)
    (env : FsEnv) (proc : ProcEvents) (platform eol javaHome serverHome : String)
    (getClassPath : String → List String) (testList : List TestSuite)
    (storagePath ts : String) (launchersFound : List String) :
    (runSingleton false (Except.error e)).2.2 = Except.error e ∧
    withScopeAsync (Except.error e)
      = (Except.ok none, [Eff.logUsage "fail" (some e)]) ∧
    registeredRunCommand false (Except.error e) = Except.ok none ∧
    (runTest env proc platform eol javaHome serverHome getClassPath testList
        storagePath ts launchersFound (Except.error e) true).1 = Except.error e ∧
    Eff.logErr ("Failed to get free port for debugging. Details: " ++ e ++ ".")
      ∈ (runTest env proc platform eol javaHome serverHome getClassPath testList
          storagePath ts launchersFound (Except.error e) true).2 := by
  refine ⟨rfl, rfl, rfl, rfl, ?_⟩
  simp [runTest]

/-- C8 counterexample: the claim that the separator is `;` on Windows-family
platforms and `:` on every non-Windows platform fails on the code: platform
`freebsd` is not Windows-family (it does not start with `win`), yet the
separator computed for it is `;`, not `:`. -/
theorem c8_counterexample :
    ¬ (∀ p : String, separatorFor p = if isWindowsPlatform p then ";" else ":") :=
  fun h => absurd (h "freebsd") (by decide)

/-- C8 amended: for every run whose launcher is found and whose joined
classpath is within the length threshold, the `-cp` token is the
quote-wrapped concatenation of the entries joined with the platform
separator, and that separator is `:` exactly on `darwin` and `linux` and
`;` on every other platform (including `win32` and also non-Windows
platforms such as `freebsd`). -/
theorem c8_separator_by_platform
    (env : FsEnv) (javaHome : String) (cps suites : List String)
    (storagePath : String) (port : Nat) (dbg : Bool) (launcher : String)
    (ls : List String) (serverHome platform eol : String)
    (h : (joinSep (separatorFor platform)
            ((serverHome ++ "/" ++ launcher) :: cps)).length
          ≤ Constants.MAX_CLASS_PATH_LENGTH) :
    (parseParams env javaHome cps suites storagePath port dbg (launcher :: ls)
        serverHome platform eol).1
      = Except.ok (some
          ((if dbg then
              [quoteArg (javaHome ++ "/bin/java"), "-cp",
               quoteArg (joinSep (separatorFor platform)
                 ((serverHome ++ "/" ++ launcher) :: cps))] ++
              ["-Xdebug",
               "-Xrunjdwp:transport=dt_socket,server=y,suspend=y,address=" ++ toString port]
            else
              [quoteArg (javaHome ++ "/bin/java"), "-cp",
               quoteArg (joinSep (separatorFor platform)
                 ((serverHome ++ "/" ++ launcher) :: cps))]) ++
            ["com.microsoft.java.test.runner.JUnitLauncher"] ++ suites)) ∧
    ((platform = "darwin" ∨ platform = "linux") → separatorFor platform = ":") ∧
    (platform ≠ "darwin" → platform ≠ "linux" → separatorFor platform = ";") := by
  refine ⟨?_, ?_, ?_⟩
  · simp [parseParams, processLongClassPath, h]
  · intro hp
    simp [separatorFor, hp]
  · intro h1 h2
    simp [separatorFor, h1, h2]

/-- C8 witness: a concrete short-classpath run on `freebsd`, discharging the
length hypothesis and exercising both separator conjuncts. -/
theorem c8_separator_witness :
    ((joinSep (separatorFor "freebsd") (("/srv" ++ "/" ++ "l.jar") :: ["/cp1"])).length
        ≤ Constants.MAX_CLASS_PATH_LENGTH) ∧
    (parseParams ⟨none, none⟩ "/jdk" ["/cp1"] ["s1"] "/st" 0 false ["l.jar"]
        "/srv" "freebsd" "\n").1
      = Except.ok (some
          ([quoteArg ("/jdk" ++ "/bin/java"), "-cp",
            quoteArg (joinSep (separatorFor "freebsd")
              (("/srv" ++ "/" ++ "l.jar") :: ["/cp1"]))] ++
           ["com.microsoft.java.test.runner.JUnitLauncher"] ++ ["s1"])) ∧
    separatorFor "freebsd" = ";" := by
  have hlen : (joinSep (separatorFor "freebsd")
      (("/srv" ++ "/" ++ "l.jar") :: ["/cp1"])).length
        ≤ Constants.MAX_CLASS_PATH_LENGTH := by decide
  have h := c8_separator_by_platform ⟨none, none⟩ "/jdk" ["/cp1"] ["s1"] "/st" 0 false
    "l.jar" [] "/srv" "freebsd" "\n" hlen
  exact ⟨hlen, by simpa using h.1, h.2.2 (by decide) (by decide)⟩

/-- Items rendered by any entry function that keeps the item's text intact
(some prefix, the item, some suffix) appear in order in the separator-joined
rendering surrounded by arbitrary text. -/
theorem appearsInOrder_pre_join_post (E : String → String)
    (hE : ∀ c : String, ∃ a b : List Char, (E c).data = a ++ c.data ++ b)
    (sep : String) :
    ∀ (cps : List String) (pre post : String),
      appearsInOrder cps (pre ++ joinSep sep (cps.map E) ++ post) := by
  intro cps
  induction cps with
  | nil =>
    intro pre post
    exact ⟨[(pre ++ joinSep sep ([].map E) ++ post).data], by simp, rfl⟩
  | cons c rest ih =>
    intro pre post
    obtain ⟨a, b, hab⟩ := hE c
    cases rest with
    | nil =>
      refine ⟨[pre.data ++ a, b ++ post.data], by simp [appearsInOrder], ?_⟩
      simp [interleaveChars, joinSep, String.data_append, hab, List.append_assoc]
    | cons c2 rest2 =>
      obtain ⟨gaps, hlen, hint⟩ := ih (String.mk b ++ sep) post
      refine ⟨(pre.data ++ a) :: gaps, by simpa using hlen, ?_⟩
      have h3 : interleaveChars ((pre.data ++ a) :: gaps)
          ((c :: c2 :: rest2).map String.data)
          = (pre.data ++ a) ++ (c.data ++ interleaveChars gaps
              ((c2 :: rest2).map String.data)) := by
        simp [interleaveChars, List.append_assoc]
      rw [h3, hint]
      simp [joinSep, String.data_append, hab, List.append_assoc]

/-- Every manifest entry rendering keeps the entry's text intact: it is the
file-URL scheme, then the entry, then at most a trailing slash. -/
theorem manifest_entry_data (c : String) :
    ∃ a b : List Char,
      ((fun x => if (fileUrl x).endsWith ".jar" then fileUrl x else fileUrl x ++ "/") c).data
        = a ++ c.data ++ b := by
  by_cases hc : (fileUrl c).endsWith ".jar"
  · refine ⟨"file://".data, [], ?_⟩
    show (if (fileUrl c).endsWith ".jar" = true then fileUrl c else fileUrl c ++ "/").data
        = "file://".data ++ c.data ++ []
    rw [if_pos hc]
    simp [fileUrl, String.data_append]
  · refine ⟨"file://".data, "/".data, ?_⟩
    show (if (fileUrl c).endsWith ".jar" = true then fileUrl c else fileUrl c ++ "/").data
        = "file://".data ++ c.data ++ "/".data
    rw [if_neg hc]
    simp [fileUrl, String.data_append]

/-- The manifest content always begins with the `Class-Path:` header. -/
theorem constructManifestFile_head (eol : String) (cps : List String) :
    ∃ rest : List Char,
      (constructManifestFile eol cps).data = "Class-Path:".data ++ rest := by
  cases cps with
  | nil =>
    exact ⟨eol.data, by simp [constructManifestFile, joinSep, String.data_append]⟩
  | cons c t =>
    refine ⟨(" " ++ eol ++ " ").data ++
      ((joinSep (" " ++ eol ++ " ")
        ((c :: t).map (fun x =>
          if (fileUrl x).endsWith ".jar" then fileUrl x else fileUrl x ++ "/"))).data
        ++ eol.data), ?_⟩
    simp [constructManifestFile, joinSep, String.data_append, List.append_assoc]

/-- Shape of the manifest content for a non-empty entry list: header and
separator in front, the separator-joined renderings, the final terminator. -/
theorem constructManifestFile_shape (eol c : String) (t : List String) :
    constructManifestFile eol (c :: t)
      = ("Class-Path:" ++ (" " ++ eol ++ " ")) ++
        joinSep (" " ++ eol ++ " ")
          ((c :: t).map (fun x =>
            if (fileUrl x).endsWith ".jar" then fileUrl x else fileUrl x ++ "/")) ++ eol := by
  apply eq_of_data_eq
  simp [constructManifestFile, joinSep, String.data_append, List.append_assoc]

/-- C3: when the separator-joined concatenation of the entries is within the
maximum, `processLongClassPath` resolves with exactly that joined string (no
archive is written, for every filesystem environment); when it exceeds the
maximum, it resolves with the `path.jar` file inside the storage directory,
and the archive written there holds a manifest that starts with the
`Class-Path:` header and lists all entries, each intact, in their original
order. -/
theorem c3_classpath_threshold (cps : List String) (sep storagePath eol : String) :
    ((joinSep sep cps).length ≤ Constants.MAX_CLASS_PATH_LENGTH →
      ∀ env : FsEnv,
        processLongClassPath env cps sep storagePath eol
          = Except.ok ⟨joinSep sep cps, none⟩) ∧
    (Constants.MAX_CLASS_PATH_LENGTH < (joinSep sep cps).length →
      processLongClassPath ⟨none, none⟩ cps sep storagePath eol
          = Except.ok ⟨storagePath ++ "/" ++ "path.jar",
              some (storagePath ++ "/" ++ "path.jar", constructManifestFile eol cps)⟩ ∧
      (∃ rest : List Char,
        (constructManifestFile eol cps).data = "Class-Path:".data ++ rest) ∧
      appearsInOrder cps (constructManifestFile eol cps)) := by
  constructor
  · intro h env
    simp [processLongClassPath, h]
  · intro h
    have hn : ¬ ((joinSep sep cps).length ≤ Constants.MAX_CLASS_PATH_LENGTH) :=
      Nat.not_le.mpr h
    refine ⟨by simp [processLongClassPath, hn], constructManifestFile_head eol cps, ?_⟩
    cases cps with
    | nil => exact ⟨[(constructManifestFile eol []).data], by simp [appearsInOrder], rfl⟩
    | cons c t =>
      rw [constructManifestFile_shape]
      exact appearsInOrder_pre_join_post _ manifest_entry_data (" " ++ eol ++ " ")
        (c :: t) ("Class-Path:" ++ (" " ++ eol ++ " ")) eol

/-- C3 witness: a two-entry classpath under the threshold resolves to the
joined string, and a single overlong entry takes the manifest-jar branch. -/
theorem c3_classpath_threshold_witness :
    ((joinSep ":" ["/a", "/b.jar"]).length ≤ Constants.MAX_CLASS_PATH_LENGTH ∧
      processLongClassPath ⟨none, none⟩ ["/a", "/b.jar"] ":" "/st" "\n"
        = Except.ok ⟨joinSep ":" ["/a", "/b.jar"], none⟩) ∧
    (Constants.MAX_CLASS_PATH_LENGTH < (joinSep ":" [bigEntryA]).length ∧
      (processLongClassPath ⟨none, none⟩ [bigEntryA] ":" "/st" "\n"
          = Except.ok ⟨"/st" ++ "/" ++ "path.jar",
              some ("/st" ++ "/" ++ "path.jar", constructManifestFile "\n" [bigEntryA])⟩ ∧
        (∃ rest : List Char,
          (constructManifestFile "\n" [bigEntryA]).data = "Class-Path:".data ++ rest) ∧
        appearsInOrder [bigEntryA] (constructManifestFile "\n" [bigEntryA]))) := by
  have h1 : (joinSep ":" ["/a", "/b.jar"]).length ≤ Constants.MAX_CLASS_PATH_LENGTH := by
    decide
  have h2 : Constants.MAX_CLASS_PATH_LENGTH < (joinSep ":" [bigEntryA]).length := by
    have hb : bigEntryA.length = 4097 := by
      show (List.replicate 4097 'a').length = 4097
      exact List.length_replicate ..
    show Constants.MAX_CLASS_PATH_LENGTH < bigEntryA.length
    rw [hb]
    decide
  exact ⟨⟨h1, (c3_classpath_threshold ["/a", "/b.jar"] ":" "/st" "\n").1 h1 ⟨none, none⟩⟩,
    ⟨h2, (c3_classpath_threshold [bigEntryA] ":" "/st" "\n").2 h2⟩⟩

/-- C4: the generated manifest content is the `Class-Path:` header followed
by one item per classpath entry in order — the entry's file-URL unmodified
when that URL ends in `.jar`, the file-URL with a trailing slash otherwise —
successive items joined by the OS line terminator with a single space on
each side, the whole content ending with the terminator. -/
theorem c4_manifest_entries (eol : String) (cps : List String) :
    ∃ items : List String,
      constructManifestFile eol cps
        = joinSep (" " ++ eol ++ " ") ("Class-Path:" :: items) ++ eol ∧
      items.length = cps.length ∧
      ∀ i : Nat,
        items[i]? = (cps[i]?).map (fun c =>
          if (fileUrl c).endsWith ".jar" then fileUrl c else fileUrl c ++ "/") := by
  refine ⟨cps.map (fun c =>
      if (fileUrl c).endsWith ".jar" then fileUrl c else fileUrl c ++ "/"),
    rfl, by simp, fun i => ?_⟩
  exact List.getElem?_map ..

/-- C10: inside the `mkdirp` callback, a directory-creation error whose code
is not `EEXIST` makes the promise reject with that error, yet the callback
body keeps executing past the rejection: the effect trace continues after
`reject` with the creation of the `path.jar` write stream and the archive
append of the manifest. -/
theorem c10_reject_then_continue (e : MkdirpErr) (tempFile : String)
    (cps : List String) (eol sep storagePath : String) (env : FsEnv)
    (h : e.code ≠ "EEXIST")
    (hlen : Constants.MAX_CLASS_PATH_LENGTH < (joinSep sep cps).length)
    (henv : env.mkdirpErr = some e) :
    (∃ pre post : List JarEff,
      mkdirpCallback (some e) tempFile cps eol
        = pre ++ JarEff.reject e :: post ∧
      JarEff.createWriteStream tempFile ∈ post ∧
      JarEff.appendEntry "META-INF/MANIFEST.MF" (constructManifestFile eol cps) ∈ post) ∧
    processLongClassPath env cps sep storagePath eol = Except.error e.message := by
  constructor
  · refine ⟨[JarEff.logError
        ("Failed to create sub directory for this run. Storage path: " ++ e.message)],
      [JarEff.createWriteStream tempFile, JarEff.pipeToOutput,
       JarEff.appendEntry "META-INF/MANIFEST.MF" (constructManifestFile eol cps),
       JarEff.finalizeArchive], ?_, by simp, by simp⟩
    simp [mkdirpCallback, h]
  · have hn : ¬ ((joinSep sep cps).length ≤ Constants.MAX_CLASS_PATH_LENGTH) :=
      Nat.not_le.mpr hlen
    simp [processLongClassPath, hn, henv, h]

/-- C10 witness: a concrete `EACCES` failure on an overlong classpath. -/
theorem c10_reject_then_continue_witness :
    (MkdirpErr.mk "EACCES" "permission denied").code ≠ "EEXIST" ∧
    Constants.MAX_CLASS_PATH_LENGTH < (joinSep ":" [bigEntryB]).length ∧
    (FsEnv.mk (some (MkdirpErr.mk "EACCES" "permission denied")) none).mkdirpErr
      = some (MkdirpErr.mk "EACCES" "permission denied") ∧
    ((∃ pre post : List JarEff,
        mkdirpCallback (some (MkdirpErr.mk "EACCES" "permission denied"))
            "/st/path.jar" [bigEntryB] "\n"
          = pre ++ JarEff.reject (MkdirpErr.mk "EACCES" "permission denied") :: post ∧
        JarEff.createWriteStream "/st/path.jar" ∈ post ∧
        JarEff.appendEntry "META-INF/MANIFEST.MF"
          (constructManifestFile "\n" [bigEntryB]) ∈ post) ∧
      processLongClassPath
          (FsEnv.mk (some (MkdirpErr.mk "EACCES" "permission denied")) none)
          [bigEntryB] ":" "/st" "\n"
        = Except.error (MkdirpErr.mk "EACCES" "permission denied").message) := by
  have h : (MkdirpErr.mk "EACCES" "permission denied").code ≠ "EEXIST" := by decide
  have hlen : Constants.MAX_CLASS_PATH_LENGTH < (joinSep ":" [bigEntryB]).length := by
    have hb : bigEntryB.length = 4097 := by
      show (List.replicate 4097 'b').length = 4097
      exact List.length_replicate ..
    show Constants.MAX_CLASS_PATH_LENGTH < bigEntryB.length
    rw [hb]
    decide
  exact ⟨h, hlen, rfl,
    c10_reject_then_continue (MkdirpErr.mk "EACCES" "permission denied")
      "/st/path.jar" [bigEntryB] "\n" ":" "/st"
      (FsEnv.mk (some (MkdirpErr.mk "EACCES" "permission denied")) none) h hlen rfl⟩
